import Mathlib

/-!
# Verification of the amortization engine of `LoanPmt.py`

Shallow embedding of the `MortgagePayment` class (file `LoanPmt.py`): the
rate converter `_period_rate`, the payment solver `calculate_payment`, the
schedule builder `build_amortization_schedule` and the scheme orchestrator
`generate_payment_schedule`, together with proofs of the specified
invariants.

The numeric model is exact arithmetic: the builder and the solver are
stated over an arbitrary `LinearOrderedField` (instantiated at `ℚ` for
concrete evaluations and at `ℝ` for the orchestrator), and the rate
converter, whose exponent `2 / periods_per_year` is not an integer, is
stated over `ℝ` with real exponentiation.  The `.round(2)` applied by the
Python code to the returned DataFrame (line 125) is presentation-layer
rounding, outside the modelled computation (lines 92-121 build the rows).
-/

/-- One row of an amortization schedule: the dictionary appended by
`build_amortization_schedule` for each period (keys "Period",
"Beginning Balance", "Payment", "Principal Paid", "Interest Paid",
"Ending Balance"). -/
structure ScheduleRow (α : Type) where
  period : ℕ
  beginning_balance : α
  payment : α
  principal_paid : α
  interest_paid : α
  ending_balance : α
  deriving DecidableEq, Repr

variable {α : Type} [LinearOrderedField α]

/-- The loop of `build_amortization_schedule` (LoanPmt.py lines 92-121):
`for period in range(1, total_periods + 2)` becomes recursion on the
remaining iteration count `fuel`; the loop state is `current_balance`.
Each iteration first tests `current_balance <= 0: break`, then computes
`interest_paid = current_balance * rate` and branches on
`(current_balance + interest_paid) < payment` between the final-payment
row and the regular row; after a final-payment row the code sets
`current_balance = 0`, so the next iteration (when the bound allows one)
breaks immediately. -/
def buildRows (payment rate : α) : ℕ → ℕ → α → List (ScheduleRow α)
  | 0, _, _ => []
  | fuel + 1, period, current_balance =>
    if current_balance ≤ 0 then []
    else
      let interest_paid := current_balance * rate
      if current_balance + interest_paid < payment then
        { period := period
          beginning_balance := current_balance
          payment := current_balance + interest_paid
          principal_paid := current_balance
          interest_paid := interest_paid
          ending_balance := 0 } :: buildRows payment rate fuel (period + 1) 0
      else
        { period := period
          beginning_balance := current_balance
          payment := payment
          principal_paid := payment - interest_paid
          interest_paid := interest_paid
          ending_balance := current_balance - (payment - interest_paid) } ::
          buildRows payment rate fuel (period + 1)
            (current_balance - (payment - interest_paid))

/-- `MortgagePayment.build_amortization_schedule(principal, payment, rate,
periods_per_year)`: `total_periods = self.amortization_years *
periods_per_year`, and the loop runs over `range(1, total_periods + 2)`,
i.e. at most `total_periods + 1` iterations starting at period 1. -/
def build_amortization_schedule (amortization_years : ℕ)
    (principal payment rate : α) (periods_per_year : ℕ) :
    List (ScheduleRow α) :=
  buildRows payment rate (amortization_years * periods_per_year + 1) 1 principal

/-- `MortgagePayment.calculate_payment(principal, rate, m)` (LoanPmt.py
lines 53-58): `n = self.amortization_years * m`; if `rate == 0` return
`principal / n`, else `(principal * rate) / (1 - (1 + rate) ** -n)`. -/
def calculate_payment (amortization_years : ℕ) (principal rate : α)
    (m : ℕ) : α :=
  let n := amortization_years * m
  if rate = 0 then principal / (n : α)
  else (principal * rate) / (1 - (1 + rate) ^ (-(n : ℤ)))

/-- `calculate_payment` with the Python failure behaviour made explicit:
the only ways the method can fail to return a number are the float
`ZeroDivisionError`s — `principal / n` with `n == 0`, `(1 + rate) ** -n`
with base `0` and `n > 0`, and the division by `1 - (1 + rate) ** -n`
when that difference is `0`.  There is no input-validation code: no check
on the sign of `principal`, `rate`, `amortization_years` or `m` appears
anywhere in `__init__` (lines 24-35) or `calculate_payment` (lines 53-58). -/
def calculate_paymentE (amortization_years : ℕ) (principal rate : ℚ)
    (m : ℕ) : Except String ℚ :=
  let n := amortization_years * m
  if rate = 0 then
    if n = 0 then Except.error "ZeroDivisionError"
    else Except.ok (principal / (n : ℚ))
  else
    if 1 + rate = 0 ∧ 0 < n then Except.error "ZeroDivisionError"
    else if 1 - (1 + rate) ^ (-(n : ℤ)) = 0 then Except.error "ZeroDivisionError"
    else Except.ok ((principal * rate) / (1 - (1 + rate) ^ (-(n : ℤ))))

/-- The nested helper `_period_rate(quoted_interest_rate,
periods_per_year)` of `__init__` (LoanPmt.py lines 40-42):
`((1 + quoted_interest_rate / 2) ** (2 / periods_per_year)) - 1`.
The exponent is the real number `2 / periods_per_year`, so this lives in
`ℝ` with real exponentiation. -/
noncomputable def period_rate (quoted_interest_rate : ℝ)
    (periods_per_year : ℕ) : ℝ :=
  (1 + quoted_interest_rate / 2) ^ ((2 : ℝ) / (periods_per_year : ℝ)) - 1

/-- The spec's formula for the rate converter, written from §4.1:
"compute the effective semi-annual rate `nominal/2`, then derive the
periodic rate as `(1 + nominal/2)^(2/periods_per_year) - 1`". -/
noncomputable def periodic_rate_spec (nominal_annual_rate : ℝ)
    (periods_per_year : ℕ) : ℝ :=
  (1 + nominal_annual_rate / 2) ^ ((2 : ℝ) / (periods_per_year : ℝ)) - 1

/-- The `MortgagePayment` class: `__init__` stores the quoted rate divided
by 100 and pre-computes the four periodic rates (LoanPmt.py lines 24-46). -/
structure MortgagePayment where
  quoted_interest_rate : ℝ
  amortization_years : ℕ
  term_years : ℕ
  monthly_rate : ℝ
  semi_monthly_rate : ℝ
  bi_weekly_rate : ℝ
  weekly_rate : ℝ

/-- `MortgagePayment.__init__(quoted_interest_rate, amortization_years,
term_years)`. -/
noncomputable def MortgagePayment.mkFromQuote (quoted_interest_rate : ℝ)
    (amortization_years term_years : ℕ) : MortgagePayment :=
  let q := quoted_interest_rate / 100
  { quoted_interest_rate := q
    amortization_years := amortization_years
    term_years := term_years
    monthly_rate := period_rate q 12
    semi_monthly_rate := period_rate q 24
    bi_weekly_rate := period_rate q 26
    weekly_rate := period_rate q 52 }

/-- `MortgagePayment.payments(principal)` (LoanPmt.py lines 62-69): the
tuple `(monthly, semi_monthly, bi_weekly, accelerated_bi_weekly, weekly,
accelerated_weekly)` with `accelerated_bi_weekly = monthly / 2` and
`accelerated_weekly = monthly / 4`; each solved payment is
`self.calculate_payment(principal, rate, m)`, i.e. uses
`self.amortization_years`. -/
noncomputable def MortgagePayment.payments (mp : MortgagePayment)
    (principal : ℝ) : ℝ × ℝ × ℝ × ℝ × ℝ × ℝ :=
  let monthly := calculate_payment mp.amortization_years principal
    mp.monthly_rate 12
  let semi_monthly := calculate_payment mp.amortization_years principal
    mp.semi_monthly_rate 24
  let bi_weekly := calculate_payment mp.amortization_years principal
    mp.bi_weekly_rate 26
  let accelerated_bi_weekly := monthly / 2
  let weekly := calculate_payment mp.amortization_years principal
    mp.weekly_rate 52
  let accelerated_weekly := monthly / 4
  (monthly, semi_monthly, bi_weekly, accelerated_bi_weekly, weekly,
    accelerated_weekly)

/-- The computational core of
`MortgagePayment.generate_payment_schedule(principal)` (LoanPmt.py lines
129-157): unpack `self.payments(principal)`, recompute the accelerated
payments from the monthly payment, and build the six schedules, the
accelerated ones with the bi-weekly and weekly periodic rates.  The Excel
export and the plot are boundary I/O and are not modelled. -/
noncomputable def MortgagePayment.generate_payment_schedule
    (mp : MortgagePayment) (principal : ℝ) :
    List (String × List (ScheduleRow ℝ)) :=
  let payment_values := mp.payments principal
  let monthly_pmt := payment_values.1
  let semi_monthly_pmt := payment_values.2.1
  let bi_weekly_pmt := payment_values.2.2.1
  let weekly_pmt := payment_values.2.2.2.2.1
  let acc_bi_weekly_pmt := monthly_pmt / 2
  let acc_weekly_pmt := monthly_pmt / 4
  [("Monthly",
      build_amortization_schedule mp.amortization_years principal monthly_pmt
        mp.monthly_rate 12),
   ("Semi-Monthly",
      build_amortization_schedule mp.amortization_years principal
        semi_monthly_pmt mp.semi_monthly_rate 24),
   ("Bi-Weekly",
      build_amortization_schedule mp.amortization_years principal
        bi_weekly_pmt mp.bi_weekly_rate 26),
   ("Accelerated Bi-Weekly",
      build_amortization_schedule mp.amortization_years principal
        acc_bi_weekly_pmt mp.bi_weekly_rate 26),
   ("Weekly",
      build_amortization_schedule mp.amortization_years principal weekly_pmt
        mp.weekly_rate 52),
   ("Accelerated Weekly",
      build_amortization_schedule mp.amortization_years principal
        acc_weekly_pmt mp.weekly_rate 52)]

lemma buildRows_zero (payment rate : α) (fuel period : ℕ) :
    buildRows payment rate fuel period 0 = [] := by
  cases fuel <;> simp [buildRows]

lemma buildRows_length_le (payment rate : α) :
    ∀ fuel period current,
      (buildRows payment rate fuel period current).length ≤ fuel := by
  intro fuel
  induction fuel with
  | zero => intro period current; simp [buildRows]
  | succ f ih =>
    intro period current
    simp only [buildRows]
    split_ifs with h1 h2
    · simp
    · simpa using Nat.succ_le_succ (ih (period + 1) 0)
    · simpa using Nat.succ_le_succ (ih (period + 1) _)

lemma buildRows_head?_beginning (payment rate : α) (fuel period : ℕ)
    (current : α) (r₀ : ScheduleRow α)
    (h : (buildRows payment rate fuel period current).head? = some r₀) :
    r₀.beginning_balance = current := by
  cases fuel with
  | zero => simp [buildRows] at h
  | succ f =>
    simp only [buildRows] at h
    split_ifs at h
    · simp at h
    · simp only [List.head?_cons, Option.some.injEq] at h
      subst h; rfl
    · simp only [List.head?_cons, Option.some.injEq] at h
      subst h; rfl

lemma buildRows_row_facts (payment rate : α) :
    ∀ fuel period current,
      ∀ row ∈ buildRows payment rate fuel period current,
        row.interest_paid = row.beginning_balance * rate ∧
        row.ending_balance = row.beginning_balance - row.principal_paid ∧
        0 ≤ row.ending_balance := by
  intro fuel
  induction fuel with
  | zero => intro period current row h; simp [buildRows] at h
  | succ f ih =>
    intro period current row h
    simp only [buildRows] at h
    split_ifs at h with h1 h2
    · simp at h
    · rcases List.mem_cons.mp h with rfl | hmem
      · exact ⟨rfl, (sub_self current).symm, le_refl 0⟩
      · exact ih _ _ row hmem
    · rcases List.mem_cons.mp h with rfl | hmem
      · refine ⟨rfl, rfl, ?_⟩
        push_neg at h2
        simp only
        linarith
      · exact ih _ _ row hmem

lemma buildRows_chain (payment rate : α) :
    ∀ fuel period current,
      (buildRows payment rate fuel period current).Chain'
        (fun a b => b.beginning_balance = a.ending_balance) := by
  intro fuel
  induction fuel with
  | zero => intro period current; simp [buildRows]
  | succ f ih =>
    intro period current
    simp only [buildRows]
    split_ifs with h1 h2
    · simp
    · rw [buildRows_zero]; simp
    · refine List.chain'_cons'.mpr ⟨?_, ih _ _⟩
      intro y hy
      exact buildRows_head?_beginning payment rate f (period + 1) _ y hy

lemma buildRows_dropLast_regular (payment rate : α) :
    ∀ fuel period current,
      ∀ row ∈ (buildRows payment rate fuel period current).dropLast,
        row.principal_paid + row.interest_paid = payment := by
  intro fuel
  induction fuel with
  | zero => intro period current row h; simp [buildRows] at h
  | succ f ih =>
    intro period current row h
    simp only [buildRows] at h
    split_ifs at h with h1 h2
    · simp at h
    · rw [buildRows_zero] at h; simp at h
    · rcases hrest : buildRows payment rate f (period + 1)
          (current - (payment - current * rate)) with _ | ⟨b, t⟩
      · rw [hrest] at h; simp at h
      · rw [hrest, List.dropLast_cons₂] at h
        rcases List.mem_cons.mp h with rfl | hmem
        · simp only
          ring
        · exact ih _ _ row (hrest ▸ hmem)

/-- Present value, in units of one payment, of `m` remaining level payments
at periodic rate `rate`: the balance that exactly `m` further regular
periods retire. -/
def annuity_factor (rate : α) (m : ℕ) : α :=
  (Finset.range m).sum (fun j => ((1 + rate) ^ (j + 1))⁻¹)

lemma annuity_factor_nonneg (rate : α) (hr : 0 ≤ rate) (m : ℕ) :
    0 ≤ annuity_factor rate m := by
  refine Finset.sum_nonneg fun j _ => ?_
  have h1 : (0:α) < 1 + rate := by linarith
  positivity

lemma annuity_factor_pos (rate : α) (hr : 0 ≤ rate) (m : ℕ) (hm : m ≠ 0) :
    0 < annuity_factor rate m := by
  refine Finset.sum_pos (fun j _ => ?_) (by simpa using hm)
  have h1 : (0:α) < 1 + rate := by linarith
  positivity

lemma annuity_factor_step (rate : α) (hr : 0 ≤ rate) (m : ℕ) :
    (1 + rate) * annuity_factor rate (m + 1) = 1 + annuity_factor rate m := by
  have h1 : (1:α) + rate ≠ 0 := by positivity
  unfold annuity_factor
  rw [Finset.mul_sum]
  have hterm : ∀ j : ℕ, (1 + rate) * ((1 + rate) ^ (j + 1))⁻¹ =
      ((1 + rate) ^ j)⁻¹ := by
    intro j
    rw [pow_succ, mul_inv, ← mul_assoc, mul_comm (1+rate), mul_assoc,
      mul_inv_cancel₀ h1, mul_one]
  simp only [hterm]
  rw [Finset.sum_range_succ' (fun j => ((1 + rate) ^ j)⁻¹) m]
  simp [add_comm]

lemma annuity_factor_closed (rate : α) (hrate : 0 < rate) (n : ℕ) :
    annuity_factor rate n = (1 - ((1 + rate) ^ n)⁻¹) / rate := by
  have h1 : (1:α) + rate ≠ 0 := by positivity
  induction n with
  | zero => simp [annuity_factor]
  | succ n ih =>
    have hpow : ((1:α) + rate) ^ n ≠ 0 := pow_ne_zero _ h1
    have step := annuity_factor_step rate (le_of_lt hrate) n
    have hA : annuity_factor rate (n + 1) =
        (1 + annuity_factor rate n) / (1 + rate) := by
      field_simp
      linarith [step]
    rw [hA, ih, pow_succ]
    field_simp
    ring

lemma buildRows_annuity (payment rate : α) (hr : 0 ≤ rate)
    (hp : 0 < payment) :
    ∀ m fuel period (current : α), m ≤ fuel →
      current = payment * annuity_factor rate m →
      (buildRows payment rate fuel period current).length = m ∧
      (∀ rl, (buildRows payment rate fuel period current).getLast? = some rl →
        rl.ending_balance = 0) ∧
      ((buildRows payment rate fuel period current).map
        ScheduleRow.principal_paid).sum = current := by
  intro m
  induction m with
  | zero =>
    intro fuel period current _ hcur
    have hcur0 : current = 0 := by simp [annuity_factor] at hcur; exact hcur
    subst hcur0
    rw [buildRows_zero]
    refine ⟨rfl, by simp, by simp⟩
  | succ k ih =>
    intro fuel period current hfuel hcur
    obtain ⟨f, rfl⟩ : ∃ f, fuel = f + 1 := ⟨fuel - 1, by omega⟩
    have h1 : (0:α) < 1 + rate := by linarith
    have hb : 0 < current := by
      rw [hcur]
      exact mul_pos hp (annuity_factor_pos rate hr (k+1) (Nat.succ_ne_zero k))
    have hsum : current + current * rate =
        payment + payment * annuity_factor rate k := by
      have h' : current + current * rate = payment *
          ((1 + rate) * annuity_factor rate (k + 1)) := by rw [hcur]; ring
      rw [h', annuity_factor_step rate hr k]
      ring
    have hge : ¬ (current + current * rate < payment) := by
      have := annuity_factor_nonneg rate hr k
      push_neg
      nlinarith
    have hnext : current - (payment - current * rate) =
        payment * annuity_factor rate k := by linarith
    simp only [buildRows, if_neg (not_le.mpr hb), if_neg hge]
    rw [hnext]
    obtain ⟨hlen, hlast, hsump⟩ :=
      ih f (period + 1) (payment * annuity_factor rate k)
        (Nat.le_of_succ_le_succ hfuel) rfl
    refine ⟨by simpa using hlen, ?_, ?_⟩
    · intro rl hrl
      rcases hres : buildRows payment rate f (period + 1)
          (payment * annuity_factor rate k) with _ | ⟨b, t⟩
      · rw [hres, List.getLast?_singleton] at hrl
        have hk0 : k = 0 := by rw [hres] at hlen; simpa using hlen.symm
        cases Option.some.inj hrl
        rw [hk0]
        simp [annuity_factor]
      · rw [hres, List.getLast?_cons_cons] at hrl
        exact hlast rl (by rw [hres]; exact hrl)
    · simp only [List.map_cons, List.sum_cons, hsump]
      linarith

lemma annuity_factor_zero_rate (n : ℕ) : annuity_factor (0:α) n = n := by
  simp [annuity_factor]

lemma calculate_payment_mul_annuity (years m : ℕ) (P rate : α)
    (hr : 0 ≤ rate) (hn : 1 ≤ years * m) :
    calculate_payment years P rate m * annuity_factor rate (years * m) = P := by
  rcases eq_or_lt_of_le hr with hr0 | hrpos
  · subst hr0
    rw [annuity_factor_zero_rate]
    simp only [calculate_payment, if_pos rfl]
    have hyn : years ≠ 0 := by rintro rfl; simp at hn
    have hmn : m ≠ 0 := by rintro rfl; simp at hn
    have hy : ((years : ℕ) : α) ≠ 0 := Nat.cast_ne_zero.mpr hyn
    have hm2 : ((m : ℕ) : α) ≠ 0 := Nat.cast_ne_zero.mpr hmn
    field_simp
  · have hne : rate ≠ 0 := ne_of_gt hrpos
    simp only [calculate_payment, if_neg hne]
    rw [annuity_factor_closed rate hrpos]
    have hzp : ((1:α) + rate) ^ (-((years * m : ℕ) : ℤ)) =
        (((1:α) + rate) ^ (years * m))⁻¹ := by
      rw [zpow_neg, zpow_natCast]
    rw [hzp]
    have hpow1 : (1:α) < (1 + rate) ^ (years * m) :=
      one_lt_pow₀ (by linarith) (by omega)
    have hD : (0:α) < 1 - ((1 + rate) ^ (years * m))⁻¹ := by
      have := inv_lt_one_of_one_lt₀ hpow1
      linarith
    have hXne : ((1:α) + rate) ^ (years * m) ≠ 0 :=
      pow_ne_zero _ (by linarith)
    have hX1 : ((1:α) + rate) ^ (years * m) - 1 ≠ 0 :=
      sub_ne_zero.mpr (ne_of_gt hpow1)
    field_simp
    ring

lemma calculate_payment_pos (years m : ℕ) (P rate : α) (hP : 0 < P)
    (hr : 0 ≤ rate) (hn : 1 ≤ years * m) :
    0 < calculate_payment years P rate m := by
  rcases eq_or_lt_of_le hr with hr0 | hrpos
  · subst hr0
    simp only [calculate_payment, if_pos rfl]
    have hcast : (0:α) < ((years * m : ℕ) : α) := by
      exact_mod_cast Nat.pos_of_ne_zero (by omega)
    exact div_pos hP hcast
  · have hne : rate ≠ 0 := ne_of_gt hrpos
    simp only [calculate_payment, if_neg hne]
    have hzp : ((1:α) + rate) ^ (-((years * m : ℕ) : ℤ)) =
        (((1:α) + rate) ^ (years * m))⁻¹ := by
      rw [zpow_neg, zpow_natCast]
    rw [hzp]
    have hpow1 : (1:α) < (1 + rate) ^ (years * m) :=
      one_lt_pow₀ (by linarith) (by omega)
    have hD : (0:α) < 1 - ((1 + rate) ^ (years * m))⁻¹ := by
      have := inv_lt_one_of_one_lt₀ hpow1
      linarith
    exact div_pos (mul_pos hP hrpos) hD

/-- **C2.** In the Schedule Builder, whenever the current balance plus the
period's interest is strictly less than the level payment (and the loop is
still running: positive balance, at least one iteration left), exactly one
short final row is emitted: its payment is `current_balance +
interest_paid` (strictly below the level payment by hypothesis), its
principal_paid is the full current balance, its ending_balance is 0, and
no further rows follow it. -/
theorem C2_short_final_row (payment rate current : α) (fuel period : ℕ)
    (hfuel : 1 ≤ fuel) (hpos : 0 < current)
    (hshort : current + current * rate < payment) :
    buildRows payment rate fuel period current =
      [{ period := period, beginning_balance := current,
         payment := current + current * rate, principal_paid := current,
         interest_paid := current * rate, ending_balance := 0 }] := by
  obtain ⟨f, rfl⟩ : ∃ f, fuel = f + 1 := ⟨fuel - 1, by omega⟩
  simp only [buildRows, if_neg (not_le.mpr hpos), if_pos hshort]
  rw [buildRows_zero]

/-- **C10.** Boundary behaviour of the final-period test: when
`current_balance + interest_paid` equals the level payment exactly, the
strict `<` test fails, so the regular branch runs: the row's payment field
is the full level payment, `principal_paid = payment - interest_paid`, the
ending balance is exactly 0, and the loop then halts (no further rows),
because the balance is no longer positive. -/
theorem C10_boundary_exact_payoff (payment rate current : α)
    (fuel period : ℕ) (hfuel : 1 ≤ fuel) (hpos : 0 < current)
    (heq : current + current * rate = payment) :
    buildRows payment rate fuel period current =
      [{ period := period, beginning_balance := current, payment := payment,
         principal_paid := payment - current * rate,
         interest_paid := current * rate, ending_balance := 0 }] := by
  obtain ⟨f, rfl⟩ : ∃ f, fuel = f + 1 := ⟨fuel - 1, by omega⟩
  have hnotlt : ¬ (current + current * rate < payment) :=
    not_lt.mpr (le_of_eq heq.symm)
  have hend : current - (payment - current * rate) = 0 := by linarith
  simp only [buildRows, if_neg (not_le.mpr hpos), if_neg hnotlt]
  rw [hend, buildRows_zero]

/-- Counterexample to **C6**: with principal 100, level payment 0, rate 0,
`amortization_years = 1` and `periods_per_year = 1` the balance never
reaches the terminal state; after the `1 * 1 + 1 = 2` allowed iterations
the builder silently returns the two-row partial schedule with final
balance still 100 — no `ComputationInconsistency` (or any other) error is
surfaced. -/
theorem C6_counterexample :
    build_amortization_schedule 1 (100:ℚ) 0 0 1 =
      [{ period := 1, beginning_balance := 100, payment := 0,
         principal_paid := 0, interest_paid := 0, ending_balance := 100 },
       { period := 2, beginning_balance := 100, payment := 0,
         principal_paid := 0, interest_paid := 0, ending_balance := 100 }] := by
  norm_num [build_amortization_schedule, buildRows]

/-- **C6 amended.** The loop `for period in range(1, total_periods + 2)`
is bounded — the builder emits at most `amortization_years *
periods_per_year + 1` rows — but when the balance has not reached the
terminal state by that bound the builder silently truncates: it returns
the partial schedule built so far (whose final balance may be positive)
and surfaces no error of any kind. -/
theorem C6_amended_bounded_silent_truncation (years ppy : ℕ)
    (P payment rate : α) :
    (build_amortization_schedule years P payment rate ppy).length ≤
      years * ppy + 1 :=
  buildRows_length_le payment rate (years * ppy + 1) 1 P

/-- Counterexample to **C5**: with `principal = -1000` (an invalid input:
`principal ≤ 0`), rate `1/10` and a one-period horizon, the solver does
not reject the input — it runs the annuity formula and returns the
numeric result `-1100`. -/
theorem C5_counterexample :
    calculate_paymentE 1 (-1000) (1/10) 1 = Except.ok (-1100) := by
  norm_num [calculate_paymentE]

/-- **C5 amended.** Neither `__init__` nor `calculate_payment` contains
any input validation: nothing is rejected as an `InvalidInput` before
computation.  An invalid principal (or a negative rate) is accepted and
produces a numeric result — with `principal < 0`, positive rate and at
least one period the solver returns `Except.ok` of a negative payment.  A
non-positive horizon (`total_periods = 0`) is not rejected beforehand
either: the computation itself raises `ZeroDivisionError`, via
`principal / 0` when `rate = 0` and via the division by
`1 - (1 + rate) ** 0 = 0` when `rate ≠ 0`. -/
theorem C5_amended_no_validation (years m : ℕ) (P rate : ℚ) :
    (P < 0 → 0 < rate → 1 ≤ years * m →
      ∃ v : ℚ, calculate_paymentE years P rate m = Except.ok v ∧ v < 0) ∧
    (years * m = 0 →
      calculate_paymentE years P rate m = Except.error "ZeroDivisionError") := by
  constructor
  · intro hP hr hn
    have hne : rate ≠ 0 := ne_of_gt hr
    have hzp : ((1:ℚ) + rate) ^ (-((years * m : ℕ) : ℤ)) =
        (((1:ℚ) + rate) ^ (years * m))⁻¹ := by
      rw [zpow_neg, zpow_natCast]
    have hpow1 : (1:ℚ) < (1 + rate) ^ (years * m) :=
      one_lt_pow₀ (by linarith) (by omega)
    have hD : (0:ℚ) < 1 - ((1 + rate) ^ (years * m))⁻¹ := by
      have := inv_lt_one_of_one_lt₀ hpow1
      linarith
    have hcond : ¬ ((1:ℚ) + rate = 0 ∧ 0 < years * m) := by
      rintro ⟨h, -⟩; linarith
    have hDz : ¬ (1 - ((1:ℚ) + rate) ^ (-((years * m : ℕ) : ℤ)) = 0) := by
      rw [hzp]; exact ne_of_gt hD
    refine ⟨P * rate / (1 - (1 + rate) ^ (-((years * m : ℕ) : ℤ))), ?_, ?_⟩
    · simp only [calculate_paymentE, if_neg hne, if_neg hcond, if_neg hDz]
    · rw [hzp]
      exact div_neg_of_neg_of_pos (mul_neg_of_neg_of_pos hP hr) hD
  · intro h0
    by_cases hr : rate = 0
    · simp [calculate_paymentE, h0, hr]
    · simp [calculate_paymentE, h0, hr]

/-- Witness for C5's amended theorem: at `principal = -1000`,
`rate = 1/10`, one year of one period the solver returns a numeric
(negative) payment, and with a zero-year horizon it raises
`ZeroDivisionError` even though the rate is non-zero. -/
theorem C5_amended_witness :
    ((-1000 : ℚ) < 0 ∧ (0:ℚ) < 1/10 ∧ 1 ≤ 1 * 1 ∧
      (∃ v : ℚ, calculate_paymentE 1 (-1000) (1/10) 1 = Except.ok v ∧
        v < 0)) ∧
    (0 * 1 = 0 ∧
      calculate_paymentE 0 (-1000) (1/10) 1 =
        Except.error "ZeroDivisionError") :=
  ⟨⟨by norm_num, by norm_num, by norm_num,
    (C5_amended_no_validation 1 1 (-1000) (1/10)).1 (by norm_num)
      (by norm_num) (by norm_num)⟩,
   ⟨rfl, (C5_amended_no_validation 0 1 (-1000) (1/10)).2 (by norm_num)⟩⟩

/-- **C3.** The Payment Solver with principal `P`, periodic rate `rate`
and `m` periods per year over `amortization_years` years, with
`n = amortization_years * m` total periods, returns `P / n` when
`rate = 0`, and the annuity-immediate level payment
`P * rate / (1 - (1 + rate) ^ (-n))` when `rate > 0`; the latter fully
amortizes `P` over the `n` periods: multiplied by the present-value
annuity factor it gives back exactly `P`. -/
theorem C3_payment_solver_formula (years m : ℕ) (P rate : α)
    (hn : 1 ≤ years * m) :
    (rate = 0 →
      calculate_payment years P rate m = P / ((years * m : ℕ) : α)) ∧
    (0 < rate →
      calculate_payment years P rate m =
        P * rate / (1 - (1 + rate) ^ (-((years * m : ℕ) : ℤ))) ∧
      calculate_payment years P rate m * annuity_factor rate (years * m)
        = P) := by
  constructor
  · rintro rfl
    simp [calculate_payment]
  · intro hpos
    exact ⟨by simp [calculate_payment, ne_of_gt hpos],
      calculate_payment_mul_annuity years m P rate (le_of_lt hpos) hn⟩

/-- Witness for C3 at one year, one period per year, `P = 1`,
`rate = 1`: the solved payment is `2` and `2 * annuity_factor 1 1 = 1`. -/
theorem C3_witness :
    1 ≤ 1 * 1 ∧
    (((1:ℚ) = 0 →
      calculate_payment 1 (1:ℚ) 1 1 = 1 / ((1 * 1 : ℕ) : ℚ)) ∧
    ((0:ℚ) < 1 →
      calculate_payment 1 (1:ℚ) 1 1 =
        1 * 1 / (1 - (1 + 1) ^ (-((1 * 1 : ℕ) : ℤ))) ∧
      calculate_payment 1 (1:ℚ) 1 1 * annuity_factor 1 (1 * 1) = 1)) :=
  ⟨by norm_num, C3_payment_solver_formula 1 1 1 1 (by norm_num)⟩

/-- **C1.** For a schedule built for a valid input — positive principal,
non-negative periodic rate, at least one period, with the level payment
taken from the Payment Solver — every row satisfies the ledger
invariants: the first row's beginning balance is the principal and each
later row's beginning balance is the previous row's ending balance;
`interest_paid = beginning_balance * rate` in every row;
`principal_paid + interest_paid = payment` in every non-final row;
`ending_balance = beginning_balance - principal_paid ≥ 0` in every row;
and the last row's ending balance is exactly 0. -/
theorem C1_schedule_invariants (years ppy : ℕ) (P rate payment : α)
    (hP : 0 < P) (hr : 0 ≤ rate) (hn : 1 ≤ years * ppy)
    (hpay : payment = calculate_payment years P rate ppy) :
    (∀ r₀, (build_amortization_schedule years P payment rate ppy).head? =
        some r₀ → r₀.beginning_balance = P) ∧
    (build_amortization_schedule years P payment rate ppy).Chain'
      (fun a b => b.beginning_balance = a.ending_balance) ∧
    (∀ row ∈ build_amortization_schedule years P payment rate ppy,
      row.interest_paid = row.beginning_balance * rate) ∧
    (∀ row ∈ (build_amortization_schedule years P payment rate ppy).dropLast,
      row.principal_paid + row.interest_paid = payment) ∧
    (∀ row ∈ build_amortization_schedule years P payment rate ppy,
      row.ending_balance = row.beginning_balance - row.principal_paid ∧
      0 ≤ row.ending_balance) ∧
    (∀ rl, (build_amortization_schedule years P payment rate ppy).getLast? =
        some rl → rl.ending_balance = 0) := by
  have hpos : 0 < payment :=
    hpay ▸ calculate_payment_pos years ppy P rate hP hr hn
  have hPP : P = payment * annuity_factor rate (years * ppy) := by
    rw [hpay]
    exact (calculate_payment_mul_annuity years ppy P rate hr hn).symm
  obtain ⟨-, hlast, -⟩ := buildRows_annuity payment rate hr hpos
    (years * ppy) (years * ppy + 1) 1 P (Nat.le_succ _) hPP
  exact ⟨fun r₀ h => buildRows_head?_beginning payment rate _ 1 P r₀ h,
    buildRows_chain payment rate _ 1 P,
    fun row hm => (buildRows_row_facts payment rate _ 1 P row hm).1,
    buildRows_dropLast_regular payment rate _ 1 P,
    fun row hm => (buildRows_row_facts payment rate _ 1 P row hm).2,
    hlast⟩

/-- Witness for C1 at `P = 1`, `rate = 1`, one year of one period: the
solved payment is `2` and the schedule is the single row
`⟨1, 1, 2, 1, 1, 0⟩`. -/
theorem C1_witness :
    (0:ℚ) < 1 ∧ (0:ℚ) ≤ 1 ∧ 1 ≤ 1 * 1 ∧
      (2:ℚ) = calculate_payment 1 1 1 1 ∧
    ((∀ r₀, (build_amortization_schedule 1 (1:ℚ) 2 1 1).head? =
        some r₀ → r₀.beginning_balance = 1) ∧
    (build_amortization_schedule 1 (1:ℚ) 2 1 1).Chain'
      (fun a b => b.beginning_balance = a.ending_balance) ∧
    (∀ row ∈ build_amortization_schedule 1 (1:ℚ) 2 1 1,
      row.interest_paid = row.beginning_balance * 1) ∧
    (∀ row ∈ (build_amortization_schedule 1 (1:ℚ) 2 1 1).dropLast,
      row.principal_paid + row.interest_paid = 2) ∧
    (∀ row ∈ build_amortization_schedule 1 (1:ℚ) 2 1 1,
      row.ending_balance = row.beginning_balance - row.principal_paid ∧
      0 ≤ row.ending_balance) ∧
    (∀ rl, (build_amortization_schedule 1 (1:ℚ) 2 1 1).getLast? =
        some rl → rl.ending_balance = 0)) :=
  ⟨by norm_num, by norm_num, by norm_num,
    by norm_num [calculate_payment],
    C1_schedule_invariants 1 1 1 1 2 (by norm_num) (by norm_num)
      (by norm_num) (by norm_num [calculate_payment])⟩

/-- **C8.** For a valid input with strictly positive periodic rate and
the payment obtained from the Payment Solver, the schedule's
`principal_paid` column sums to exactly the principal (exact
arithmetic). -/
theorem C8_principal_paid_sums_to_principal (years ppy : ℕ)
    (P rate payment : α) (hP : 0 < P) (hr : 0 < rate)
    (hn : 1 ≤ years * ppy)
    (hpay : payment = calculate_payment years P rate ppy) :
    ((build_amortization_schedule years P payment rate ppy).map
      ScheduleRow.principal_paid).sum = P := by
  have hr' : 0 ≤ rate := le_of_lt hr
  have hpos : 0 < payment :=
    hpay ▸ calculate_payment_pos years ppy P rate hP hr' hn
  have hPP : P = payment * annuity_factor rate (years * ppy) := by
    rw [hpay]
    exact (calculate_payment_mul_annuity years ppy P rate hr' hn).symm
  obtain ⟨-, -, hsum⟩ := buildRows_annuity payment rate hr' hpos
    (years * ppy) (years * ppy + 1) 1 P (Nat.le_succ _) hPP
  exact hsum

/-- Witness for C8 at `P = 1`, `rate = 1`, one year of one period. -/
theorem C8_witness :
    (0:ℚ) < 1 ∧ (0:ℚ) < 1 ∧ 1 ≤ 1 * 1 ∧
      (2:ℚ) = calculate_payment 1 1 1 1 ∧
    ((build_amortization_schedule 1 (1:ℚ) 2 1 1).map
      ScheduleRow.principal_paid).sum = 1 :=
  ⟨by norm_num, by norm_num, by norm_num,
    by norm_num [calculate_payment],
    C8_principal_paid_sums_to_principal 1 1 1 1 2 (by norm_num)
      (by norm_num) (by norm_num) (by norm_num [calculate_payment])⟩

/-- Witness for C2 at balance 5, rate `1/10`, level payment 10:
`5 + 5 * (1/10) = 5.5 < 10`, so one short row is emitted and the schedule
ends. -/
theorem C2_witness :
    1 ≤ 3 ∧ (0:ℚ) < 5 ∧ (5:ℚ) + 5 * (1/10) < 10 ∧
    buildRows (10:ℚ) (1/10) 3 7 5 =
      [{ period := 7, beginning_balance := 5, payment := 5 + 5 * (1/10),
         principal_paid := 5, interest_paid := 5 * (1/10),
         ending_balance := 0 }] :=
  ⟨by norm_num, by norm_num, by norm_num,
    C2_short_final_row 10 (1/10) 5 3 7 (by norm_num) (by norm_num)
      (by norm_num)⟩

/-- Witness for C10 at balance 1, rate 1, level payment 2:
`1 + 1 * 1 = 2` exactly, so the regular branch runs, the row carries the
full level payment and ending balance 0, and the schedule ends. -/
theorem C10_witness :
    1 ≤ 2 ∧ (0:ℚ) < 1 ∧ (1:ℚ) + 1 * 1 = 2 ∧
    buildRows (2:ℚ) 1 2 1 1 =
      [{ period := 1, beginning_balance := 1, payment := 2,
         principal_paid := 2 - 1 * 1, interest_paid := 1 * 1,
         ending_balance := 0 }] :=
  ⟨by norm_num, by norm_num, by norm_num,
    C10_boundary_exact_payoff 2 1 1 2 1 (by norm_num) (by norm_num)
      (by norm_num)⟩

/-- **C4.** The Rate Converter, for every nominal annual rate `r ≥ 0` and
positive periods-per-year `p`, returns `(1 + r/2) ^ (2/p) - 1` (the
spec's semi-annual-compounding formula); it is not the naive `r / p`
(witnessed at `r = 2`, `p = 1`); and at `r = 0` it returns exactly 0. -/
theorem C4_rate_converter (r : ℝ) (p : ℕ) (hr : 0 ≤ r) (_hp : 0 < p) :
    period_rate r p = periodic_rate_spec r p ∧
    (r = 0 → period_rate r p = 0) ∧
    ¬ (∀ (s : ℝ) (q : ℕ), 0 ≤ s → 0 < q → period_rate s q = s / (q : ℝ)) := by
  refine ⟨rfl, ?_, ?_⟩
  · rintro rfl
    norm_num [period_rate, Real.one_rpow]
  · intro hall
    have h := hall 2 1 (by norm_num) one_pos
    have he : period_rate 2 1 = 3 := by
      unfold period_rate
      rw [show (1:ℝ) + 2 / 2 = 2 by norm_num,
        show ((2:ℝ) / ((1:ℕ) : ℝ)) = ((2:ℕ) : ℝ) by norm_num,
        Real.rpow_natCast]
      norm_num
    rw [he] at h
    norm_num at h

/-- Witness for C4 at `r = 0`, `p = 12`. -/
theorem C4_witness :
    (0:ℝ) ≤ 0 ∧ (0 < 12) ∧
    (period_rate 0 12 = periodic_rate_spec 0 12 ∧
    ((0:ℝ) = 0 → period_rate 0 12 = 0) ∧
    ¬ (∀ (s : ℝ) (q : ℕ), 0 ≤ s → 0 < q →
        period_rate s q = s / (q : ℝ))) :=
  ⟨le_refl 0, by norm_num, C4_rate_converter 0 12 (le_refl 0) (by norm_num)⟩

/-- **C9.** Compounding the derived periodic rate over half a year
(`p / 2` periods) recovers the effective semi-annual rate:
`(1 + period_rate r p) ^ (p/2) = 1 + r/2` for every `r ≥ 0` and positive
`p`; in particular the monthly rate compounded 6 times and the weekly
rate compounded 26 times agree. -/
theorem C9_semiannual_equivalence (r : ℝ) (p : ℕ) (hr : 0 ≤ r)
    (hp : 0 < p) :
    (1 + period_rate r p) ^ ((p : ℝ) / 2) = 1 + r / 2 ∧
    (1 + period_rate r 12) ^ ((12 : ℝ) / 2) =
      (1 + period_rate r 52) ^ ((52 : ℝ) / 2) := by
  have key : ∀ q : ℕ, 0 < q →
      (1 + period_rate r q) ^ ((q : ℝ) / 2) = 1 + r / 2 := by
    intro q hq
    have hbase : (0:ℝ) ≤ 1 + r / 2 := by linarith
    have hq' : ((q : ℕ) : ℝ) ≠ 0 := Nat.cast_ne_zero.mpr (by omega)
    unfold period_rate
    rw [show (1:ℝ) + ((1 + r / 2) ^ ((2:ℝ) / ((q:ℕ) : ℝ)) - 1) =
        (1 + r / 2) ^ ((2:ℝ) / ((q:ℕ) : ℝ)) by ring,
      ← Real.rpow_mul hbase,
      show (2:ℝ) / ((q:ℕ) : ℝ) * (((q:ℕ) : ℝ) / 2) = 1 by field_simp,
      Real.rpow_one]
  have h12 := key 12 (by norm_num)
  have h52 := key 52 (by norm_num)
  norm_num at h12 h52
  refine ⟨key p hp, ?_⟩
  norm_num
  rw [h12, h52]

/-- Witness for C9 at `r = 0`, `p = 2`. -/
theorem C9_witness :
    (0:ℝ) ≤ 0 ∧ (0 < 2) ∧
    ((1 + period_rate 0 2) ^ (((2:ℕ) : ℝ) / 2) = 1 + 0 / 2 ∧
    (1 + period_rate 0 12) ^ ((12 : ℝ) / 2) =
      (1 + period_rate 0 52) ^ ((52 : ℝ) / 2)) :=
  ⟨le_refl 0, by norm_num, C9_semiannual_equivalence 0 2 (le_refl 0)
    (by norm_num)⟩

/-- **C7.** For every principal, the accelerated-bi-weekly entry of
`payments` is exactly the monthly payment divided by 2 and the
accelerated-weekly entry exactly the monthly payment divided by 4 — they
are not solved with the bi-weekly/weekly rates — and
`generate_payment_schedule` builds the six schedules with the accelerated
payments paired with the bi-weekly and weekly periodic rates
respectively. -/
theorem C7_accelerated_schemes (mp : MortgagePayment) (principal : ℝ) :
    (mp.payments principal).2.2.2.1 = (mp.payments principal).1 / 2 ∧
    (mp.payments principal).2.2.2.2.2 = (mp.payments principal).1 / 4 ∧
    mp.generate_payment_schedule principal =
      [("Monthly",
          build_amortization_schedule mp.amortization_years principal
            (mp.payments principal).1 mp.monthly_rate 12),
       ("Semi-Monthly",
          build_amortization_schedule mp.amortization_years principal
            (mp.payments principal).2.1 mp.semi_monthly_rate 24),
       ("Bi-Weekly",
          build_amortization_schedule mp.amortization_years principal
            (mp.payments principal).2.2.1 mp.bi_weekly_rate 26),
       ("Accelerated Bi-Weekly",
          build_amortization_schedule mp.amortization_years principal
            ((mp.payments principal).1 / 2) mp.bi_weekly_rate 26),
       ("Weekly",
          build_amortization_schedule mp.amortization_years principal
            (mp.payments principal).2.2.2.2.1 mp.weekly_rate 52),
       ("Accelerated Weekly",
          build_amortization_schedule mp.amortization_years principal
            ((mp.payments principal).1 / 4) mp.weekly_rate 52)] :=
  ⟨rfl, rfl, rfl⟩
